import Mathlib

/-!
Verification of the Security-Camera-Agent edge runtime.

Shallow embedding of the Python sources:
  - `logger.py`        (`APILogger.log`)
  - `motion_detector.py` (`MotionDetector._in_cooldown`, `_compare_frames`,
                          `_handle_motion_event`)
  - `event_processor.py` (`EventProcessor._process_event`)
  - `api_client.py`    (`APIClient.register_camera`, `create_event`,
                        `update_file`)
  - `transfer_manager.py` (`TransferManager._parse_filename`,
                           `_process_sentinel`, `_transfer_file`)

Stateful code is embedded as explicit state passing; fallible operations
(Python exceptions) return `Option` or are driven by an explicit environment
of operation outcomes; wall-clock times are rationals; pixel values and
delays are naturals.
-/

namespace SecCam

/-! ## Logger (`logger.py`, `APILogger.log`, lines 71-98)

`log(message, level)` validates the level, enqueues `(timestamp, level,
message)` on the batch queue and prints `[timestamp] [level] message` to the
console.  The embedding returns the updated queue together with the console
line. -/

/-- The four accepted log levels, as in `logger.py` line 90. -/
def validLevels : List String := ["INFO", "WARNING", "ERROR", "DEBUG"]

/-- Result of one `APILogger.log` call: the queue after the `put` and the
console line printed. -/
structure LogCallResult where
  queue : List (String × String × String)
  console : String
  deriving Repr, DecidableEq

/-- Embedding of `APILogger.log` (logger.py lines 71-98).  `queue` is the
current contents of `self.log_queue`; `ts` stands for the formatted
`datetime.now()` value. -/
def logCall (queue : List (String × String × String)) (ts message level : String) :
    LogCallResult :=
  let lvl := if level ∈ validLevels then level else "INFO"
  { queue := queue ++ [(ts, lvl, message)]
    console := "[" ++ ts ++ "] [" ++ lvl ++ "] " ++ message }

/-! ## Motion detector: cooldown (`motion_detector.py` lines 179-190, 243-297) -/

/-- Embedding of `MotionDetector._in_cooldown` (motion_detector.py lines
179-190).  `last` is `self.last_detection_time`, `now` the value of
`time.time()`, `cooldown` is `self.cooldown_seconds`. -/
def inCooldown (last now cooldown : ℚ) : Bool :=
  if last = 0 then false
  else decide (now - last < cooldown)

/-- Outcome of the `create_event` call inside `_handle_motion_event`:
the call returns an id, returns `None` (defended against although
`create_event` never does), or some step of the handler raises. -/
inductive MotionOutcome where
  | created (id : Int)
  | createdNone
  | raised
  deriving Repr, DecidableEq

/-- Detector state touched by `_handle_motion_event`: the
`last_detection_time` field and the motion-event slot that `set` fills. -/
structure DetectorState where
  lastDetectionTime : ℚ
  slot : Option (Int × ℚ)
  deriving Repr, DecidableEq

/-- Embedding of `MotionDetector._handle_motion_event` (motion_detector.py
lines 243-297).  `ts` is the event timestamp, `now` the value of
`time.time()` at the point `last_detection_time` is assigned.  In every path
(success, `None` id, exception) the code sets `last_detection_time`. -/
def handleMotionEvent (outcome : MotionOutcome) (ts now : ℚ) (st : DetectorState) :
    DetectorState :=
  match outcome with
  | .created id => { st with slot := some (id, ts), lastDetectionTime := now }
  | .createdNone => { st with lastDetectionTime := now }
  | .raised => { st with lastDetectionTime := now }

/-! ## Event processor (`event_processor.py`, `_process_event`, lines 158-268)

The four artifact captures run sequentially inside a single `try`; each
capture may raise.  The environment records which captures would succeed.
The result records which files and `.READY` sentinels exist afterwards. -/

/-- Whether each artifact capture of `_process_event` succeeds (does not
raise): `capture_color_still` for A and B, `_create_thumbnail` (which
re-raises on failure), `save_h264` for the video. -/
structure CaptureEnv where
  pictureA : Bool
  thumb : Bool
  pictureB : Bool
  video : Bool
  deriving Repr, DecidableEq

/-- Files and sentinels present in the pending directory after
`_process_event` returns. -/
structure Produced where
  fileA : Bool
  sentA : Bool
  fileThumb : Bool
  sentThumb : Bool
  fileB : Bool
  sentB : Bool
  fileVideo : Bool
  sentVideo : Bool
  deriving Repr, DecidableEq

/-- Embedding of `EventProcessor._process_event` (event_processor.py lines
158-268).  The whole timed sequence is wrapped in one `try`; the first
capture that raises jumps to the handler at line 264, which logs and
returns, so no later artifact or sentinel is produced. -/
def processEvent (env : CaptureEnv) : Produced :=
  if env.pictureA = false then
    ⟨false, false, false, false, false, false, false, false⟩
  else if env.thumb = false then
    ⟨true, true, false, false, false, false, false, false⟩
  else if env.pictureB = false then
    ⟨true, true, true, true, false, false, false, false⟩
  else if env.video = false then
    ⟨true, true, true, true, true, true, false, false⟩
  else
    ⟨true, true, true, true, true, true, true, true⟩

end SecCam

namespace SecCam

/-! ## API client (`api_client.py`)

HTTP attempts either yield a response with a status code (and, for
`create_event`, an optional integer `id` field in the JSON body) or raise
one of the `requests` exceptions.  An attempt schedule is a function from
the 1-based attempt number to that attempt's outcome. -/

/-- Outcome of one HTTP attempt for `register_camera` / `update_file`:
a response with the given status code, or an exception. -/
inductive HttpOutcome where
  | resp (status : Nat)
  | exc
  deriving Repr, DecidableEq

/-- Outcome of one HTTP attempt for `create_event`: a response with a status
code and the optional `id` field of its JSON body, or an exception. -/
inductive EventOutcome where
  | resp (status : Nat) (idField : Option Int)
  | exc
  deriving Repr, DecidableEq

/-- `response.status_code in [200, 201]` (api_client.py lines 134, 303). -/
def statusOk (status : Nat) : Bool :=
  status = 200 || status = 201

/-- Progressive backoff of `register_camera` and `create_event`
(api_client.py lines 154-162 and 242-250): the delay slept after attempt
number `attempt` before the next attempt. -/
def delayAfter (attempt : Nat) : Nat :=
  if attempt = 1 then 0
  else if attempt = 2 then 5
  else if attempt = 3 then 10
  else 30

/-- Whether an HTTP attempt outcome counts as success: a response with
status 200 or 201 (`register_camera` line 134, `update_file` line 303);
exceptions and all other statuses are failures. -/
def httpSuccess (o : HttpOutcome) : Bool :=
  match o with
  | .resp status => statusOk status
  | .exc => false

/-- One iteration of the `create_event` retry loop (api_client.py lines
192-240): `some id` means the `return event_id` at line 222 is reached.
A 200/201 response whose body lacks `id` raises `ValueError`, which the
loop catches, so the iteration yields `none` and the loop retries. -/
def createEventStep (o : EventOutcome) : Option Int :=
  match o with
  | .resp status idField => if statusOk status then idField else none
  | .exc => none

/-- The `while True` retry loop of `register_camera`, unrolled on a fuel
bound (the Python loop has none).  Returns the delays slept between
consecutive attempts together with the returned value (always `True`). -/
def registerLoop (outcomes : Nat → HttpOutcome) (attempt : Nat) :
    Nat → Option (Bool × List Nat)
  | 0 => none
  | fuel + 1 =>
    if httpSuccess (outcomes attempt) then some (true, [])
    else
      (registerLoop outcomes (attempt + 1) fuel).map
        (fun r => (r.1, delayAfter attempt :: r.2))

/-- The `while True` retry loop of `create_event`, unrolled on a fuel bound.
Returns the event id together with the delays slept between consecutive
attempts. -/
def createEventLoop (outcomes : Nat → EventOutcome) (attempt : Nat) :
    Nat → Option (Int × List Nat)
  | 0 => none
  | fuel + 1 =>
    match createEventStep (outcomes attempt) with
    | some id => some (id, [])
    | none =>
      (createEventLoop outcomes (attempt + 1) fuel).map
        (fun r => (r.1, delayAfter attempt :: r.2))

/-- Embedding of `APIClient.update_file` (api_client.py lines 256-327):
`for attempt in range(1, 4)` with `time.sleep(2 ** (attempt - 1))` when
`attempt < max_retries`.  `remaining` counts the attempts left (3 at the
top).  Returns the boolean result and the delays slept between consecutive
attempts. -/
def updateFileGo (outcomes : Nat → HttpOutcome) : Nat → Nat → Bool × List Nat
  | 0, _ => (false, [])
  | remaining + 1, attempt =>
    if httpSuccess (outcomes attempt) then (true, [])
    else if remaining = 0 then (false, [])
    else
      let r := updateFileGo outcomes remaining (attempt + 1)
      (r.1, 2 ^ (attempt - 1) :: r.2)

/-- `update_file` performs at most `max_retries = 3` attempts starting at
attempt number 1. -/
def updateFileRun (outcomes : Nat → HttpOutcome) : Bool × List Nat :=
  updateFileGo outcomes 3 1

/-! ## Transfer manager: sentinel processing (`transfer_manager.py`)

State relevant to one `_process_sentinel` invocation for a fixed pending
file: whether the companion file and its `.READY` sentinel exist locally,
and whether `{dest}/{name}.tmp` and `{dest}/{name}` exist on the network
share.  Filesystem operations on the NFS side may raise; the environment
fixes each operation's outcome.  Local unlinks of the pending file and the
sentinel (plain unlinks on the local disk) are modelled as reliable. -/

/-- Filesystem state for one pending file. -/
structure FState where
  localFile : Bool
  sentinel : Bool
  destTmp : Bool
  destFinal : Bool
  deriving Repr, DecidableEq

/-- Outcomes of the fallible steps inside `_transfer_file`
(transfer_manager.py lines 326-403):

* `nfsMounted` — result of `_check_nfs_mounted()`;
* `mkdirRaises` — `dest_dir.mkdir` raises (before `temp_path` is assigned,
  so the handler's `'temp_path' in locals()` test is false);
* `copyRaises` — `shutil.copy2` raises; `tmpAfterFailedCopy` is whether a
  (partial) `.tmp` exists at that point;
* `cleanupUnlinkRaises` — unlinking the `.tmp` on the network share raises
  (the handler wraps this in `try/except: pass`);
* `elapsed` — wall-clock seconds the copy took, compared against the
  transfer timeout;
* `renameRaises` — `temp_path.rename` raises;
* `statRaises` — `local_path.stat()` raises (after the rename). -/
structure TransferEnv where
  nfsMounted : Bool
  mkdirRaises : Bool
  copyRaises : Bool
  tmpAfterFailedCopy : Bool
  cleanupUnlinkRaises : Bool
  elapsed : Nat
  renameRaises : Bool
  statRaises : Bool
  deriving Repr, DecidableEq

/-- The exception handler's tmp cleanup (transfer_manager.py lines 396-401):
`if temp_path.exists(): temp_path.unlink()` inside `try/except: pass` — if
the unlink raises the `.tmp` stays behind. -/
def cleanupTmp (env : TransferEnv) (s : FState) : FState :=
  if s.destTmp then
    if env.cleanupUnlinkRaises then s else { s with destTmp := false }
  else s

/-- Embedding of `TransferManager._transfer_file` (transfer_manager.py lines
326-403).  Returns the boolean result and the filesystem state afterwards. -/
def transferFile (env : TransferEnv) (timeout : Nat) (s : FState) : Bool × FState :=
  if env.nfsMounted = false then (false, s)
  else if env.mkdirRaises then (false, s)
  else if env.copyRaises then
    (false, cleanupTmp env { s with destTmp := env.tmpAfterFailedCopy })
  else
    let s1 : FState := { s with destTmp := true }
    if env.elapsed > timeout then
      -- timeout path: `if temp_path.exists(): temp_path.unlink()` with no
      -- inner try; if that unlink raises, the outer handler retries the
      -- cleanup (and swallows a second failure).
      (false, cleanupTmp env s1)
    else if env.renameRaises then
      (false, cleanupTmp env s1)
    else
      let s2 : FState := { s1 with destTmp := false, destFinal := true }
      if env.statRaises then (false, s2)
      else
        -- `_notify_api` catches all its own exceptions and its failure is
        -- non-fatal, so the success return does not depend on it.
        (true, s2)

/-- Embedding of `TransferManager._process_sentinel` (transfer_manager.py
lines 188-235) for a sentinel whose companion file name parses iff
`parses`.  Local `unlink`s of the companion file and the sentinel are
treated as reliable. -/
def processSentinel (parses : Bool) (env : TransferEnv) (timeout : Nat)
    (s : FState) : Bool × FState :=
  if s.localFile = false then (true, { s with sentinel := false })
  else if parses = false then (false, s)
  else
    let r := transferFile env timeout s
    if r.1 then (true, { r.2 with localFile := false, sentinel := false })
    else (false, r.2)

/-! ## Motion detector: frame comparison (`motion_detector.py`,
`_compare_frames`, lines 192-240)

Frames are numpy arrays: either 2-D (single channel) or 3-D (rows of pixels,
each pixel a list of channel values).  Operations that raise in numpy/cv2
(`frame[:, :, 1]` on a 2-D array, `cv2.absdiff` on arrays of different
shape) are modelled as `none`. -/

/-- A detection frame: `ndim == 2` (single channel) or `ndim == 3`. -/
inductive Frame where
  | gray (px : List (List Nat))
  | rgb (px : List (List (List Nat)))
  deriving Repr, DecidableEq

/-- `frame[:, :, 1]`: extract the green channel.  Fails (IndexError) when a
pixel has fewer than two channels. -/
def greenMat (px : List (List (List Nat))) : Option (List (List Nat)) :=
  px.mapM (fun row => row.mapM (fun pixel => pixel.get? 1))

/-- Elementwise `cv2.absdiff` on one row; fails when the lengths differ. -/
def absdiffRow : List Nat → List Nat → Option (List Nat)
  | [], [] => some []
  | a :: as, b :: bs => (absdiffRow as bs).map (fun r => (max a b - min a b) :: r)
  | _, _ => none

/-- Elementwise `cv2.absdiff` on a matrix; fails (cv2 error) when the shapes
differ. -/
def absdiffMat : List (List Nat) → List (List Nat) → Option (List (List Nat))
  | [], [] => some []
  | r1 :: m1, r2 :: m2 => do
    let r ← absdiffRow r1 r2
    let m ← absdiffMat m1 m2
    pure (r :: m)
  | _, _ => none

/-- `np.count_nonzero(diff > threshold)`. -/
def countAbove (threshold : Nat) (m : List (List Nat)) : Nat :=
  (m.map (fun row => row.countP (fun d => threshold < d))).sum

/-- Embedding of `MotionDetector._compare_frames` (motion_detector.py lines
192-240).  The `ndim` test is on `frame1` only: when `frame1` is 3-D the
code indexes `frame2[:, :, 1]` as well (IndexError when `frame2` is 2-D);
when `frame1` is 2-D it feeds `frame2` to `cv2.absdiff` unchanged (error
when `frame2` is 3-D).  `none` models an exception propagating to the
detection loop. -/
def compareFrames (threshold sensitivity : Nat) (f1 f2 : Frame) :
    Option (Bool × Nat) :=
  match f1, f2 with
  | .rgb p1, .rgb p2 => do
    let g1 ← greenMat p1
    let g2 ← greenMat p2
    let diff ← absdiffMat g1 g2
    let changed := countAbove threshold diff
    pure (sensitivity < changed, changed)
  | .rgb _, .gray _ => none
  | .gray p1, .gray p2 => do
    let diff ← absdiffMat p1 p2
    let changed := countAbove threshold diff
    pure (sensitivity < changed, changed)
  | .gray _, .rgb _ => none

/-- Spec-style restatement of the frame comparison, used for the amended
C6: extract the green planes (the whole frame when 2-D), require the two
planes to have the same row-length profile, then count the flattened
positions whose absolute difference strictly exceeds the threshold and
report motion exactly when that count strictly exceeds the sensitivity. -/
def greenPlane : Frame → Option (List (List Nat))
  | .gray px => some px
  | .rgb px => greenMat px

/-- The row-length profile of a matrix: its shape for comparison purposes. -/
def profile (m : List (List Nat)) : List Nat := m.map List.length

/-- Spec-style frame comparison (see `greenPlane`). -/
def specCompare (threshold sensitivity : Nat) (f1 f2 : Frame) :
    Option (Bool × Nat) :=
  match f1, f2 with
  | .gray _, .rgb _ => none
  | .rgb _, .gray _ => none
  | _, _ => do
    let g1 ← greenPlane f1
    let g2 ← greenPlane f2
    if profile g1 = profile g2 then
      let changed := ((g1.flatten).zip (g2.flatten)).countP
        (fun p => threshold < max p.1 p.2 - min p.1 p.2)
      pure (sensitivity < changed, changed)
    else none

/-! ## Filenames (`event_processor.py` lines 158-247 format them,
`transfer_manager.py` lines 237-292 parse them)

Strings are embedded as `List Char`.  `str.split('_')` and
`str.rsplit('.', 1)` are embedded directly; Python `int(str)` is embedded
as ASCII-whitespace stripping, an optional sign, and a nonempty run of
ASCII decimal digits (Python's `int` also accepts some unicode digits,
which cannot occur in these filenames). -/

/-- Python `s.split(c)` for a one-character separator: splits at every
occurrence, keeping empty fields. -/
def splitOnChar (c : Char) : List Char → List (List Char)
  | [] => [[]]
  | x :: xs =>
    let r := splitOnChar c xs
    if x = c then [] :: r
    else
      match r with
      | [] => [[x]]
      | h :: t => (x :: h) :: t

/-- Python `s.rsplit(c, 1)` restricted to the case the code uses: `none`
when `c` does not occur (so that indexing `[1]` would raise), otherwise the
parts before and after the last occurrence of `c`. -/
def rsplitOnceChar (c : Char) : List Char → Option (List Char × List Char)
  | [] => none
  | x :: xs =>
    match rsplitOnceChar c xs with
    | some (l, r) => some (x :: l, r)
    | none => if x = c then some ([], xs) else none

/-- Value of an ASCII decimal digit character. -/
def digitVal (c : Char) : Option Nat :=
  if c.isDigit then some (c.toNat - '0'.toNat) else none

/-- Accumulating big-endian decimal evaluation; `none` at the first
non-digit. -/
def parseDigitsAux (acc : Nat) : List Char → Option Nat
  | [] => some acc
  | c :: cs =>
    match digitVal c with
    | some d => parseDigitsAux (10 * acc + d) cs
    | none => none

/-- A nonempty run of decimal digits, evaluated big-endian. -/
def parseDigits (s : List Char) : Option Nat :=
  if s = [] then none else parseDigitsAux 0 s

/-- Strip ASCII whitespace from both ends. -/
def stripChars (s : List Char) : List Char :=
  ((s.dropWhile Char.isWhitespace).reverse.dropWhile Char.isWhitespace).reverse

/-- Embedding of Python `int(str)` on the strings that can appear as the
first underscore field of a filename: optional whitespace, an optional
sign, then a nonempty digit run; `none` models `ValueError`. -/
def pyInt (s : List Char) : Option Int :=
  match stripChars s with
  | [] => none
  | c :: rest =>
    if c = '-' then (parseDigits rest).map (fun n => -(n : Int))
    else if c = '+' then (parseDigits rest).map (fun n => (n : Int))
    else (parseDigits (c :: rest)).map (fun n => (n : Int))

/-- Little-endian decimal digit characters of `n`, with structural fuel
(`n` itself always suffices). -/
def natToCharsAux : Nat → Nat → List Char
  | 0, _ => []
  | fuel + 1, n =>
    if n = 0 then []
    else Nat.digitChar (n % 10) :: natToCharsAux fuel (n / 10)

/-- Decimal digit string of a natural number, as `str` produces. -/
def natToChars (n : Nat) : List Char :=
  if n = 0 then ['0'] else (natToCharsAux n n).reverse

/-- Decimal string of an integer, as Python `str(int)` / an f-string
produces. -/
def intToChars (i : Int) : List Char :=
  if i < 0 then '-' :: natToChars i.natAbs else natToChars i.toNat

/-- The four type tags of the filename schema. -/
inductive Tag where
  | a | b | thumb | video
  deriving Repr, DecidableEq

/-- The tag as it appears in the filename. -/
def tagChars : Tag → List Char
  | .a => "a".data
  | .b => "b".data
  | .thumb => "thumb".data
  | .video => "video".data

/-- The two extensions the event processor emits. -/
inductive Ext where
  | jpg | h264
  deriving Repr, DecidableEq

/-- The extension as it appears in the filename. -/
def extChars : Ext → List Char
  | .jpg => "jpg".data
  | .h264 => "h264".data

/-- The `type_map` of `_parse_filename` (transfer_manager.py lines
268-273): tag text to `(file_type, dest_subdir)`. -/
def typeMap (t : List Char) : Option (String × String) :=
  if t = "a".data then some ("image_a", "pictures")
  else if t = "b".data then some ("image_b", "pictures")
  else if t = "thumb".data then some ("thumbnail", "thumbs")
  else if t = "video".data then some ("video", "videos")
  else none

/-- The `file_type` the parser assigns to each tag. -/
def fileTypeOf : Tag → String
  | .a => "image_a"
  | .b => "image_b"
  | .thumb => "thumbnail"
  | .video => "video"

/-- The destination subdirectory the parser assigns to each tag. -/
def destSubdirOf : Tag → String
  | .a => "pictures"
  | .b => "pictures"
  | .thumb => "thumbs"
  | .video => "videos"

/-- The dictionary `_parse_filename` returns. -/
structure FileInfo where
  event_id : Int
  timestamp : List Char
  file_type : String
  dest_subdir : String
  extension : List Char
  original_filename : List Char
  deriving Repr, DecidableEq

/-- Embedding of `TransferManager._parse_filename` (transfer_manager.py
lines 237-292).  `none` covers both the explicit `return None`s and the
`except` clause catching `IndexError` (no `'.'`) and `ValueError`
(non-integer first field). -/
def parseFilename (filename : List Char) : Option FileInfo :=
  match rsplitOnceChar '.' filename with
  | none => none
  | some (nameWithoutExt, extension) =>
    let parts := splitOnChar '_' nameWithoutExt
    if parts.length < 4 then none
    else
      match pyInt (parts.getD 0 []) with
      | none => none
      | some eventId =>
        let timestamp := parts.getD 1 [] ++ '_' :: parts.getD 2 []
        match typeMap (parts.getD 3 []) with
        | none => none
        | some (fileType, destSubdir) =>
          some { event_id := eventId, timestamp := timestamp
                 file_type := fileType, dest_subdir := destSubdir
                 extension := extension, original_filename := filename }

/-- Filename formatting as `EventProcessor._process_event` does it
(event_processor.py lines 176, 191, 215, 233):
`f"{event_id}_{timestamp_str}_{tag}.{ext}"` with
`timestamp_str = timestamp.strftime("%Y%m%d_%H%M%S")`. -/
def formatFilename (eventId : Int) (ts : List Char) (tag : Tag) (ext : Ext) :
    List Char :=
  intToChars eventId ++ '_' :: ts ++ '_' :: tagChars tag ++ '.' :: extChars ext

/-! ## Helper lemmas on the string machinery -/

theorem rsplitOnceChar_eq_none {c : Char} {ys : List Char} (h : c ∉ ys) :
    rsplitOnceChar c ys = none := by
  induction ys with
  | nil => rfl
  | cons y ys ih =>
    have hy : ¬ y = c := fun he => h (he ▸ List.mem_cons_self y ys)
    have hys : c ∉ ys := fun hm => h (List.mem_cons_of_mem y hm)
    simp [rsplitOnceChar, ih hys, hy]

theorem rsplitOnceChar_append {c : Char} (xs : List Char) {ys : List Char}
    (h : c ∉ ys) : rsplitOnceChar c (xs ++ c :: ys) = some (xs, ys) := by
  induction xs with
  | nil => simp [rsplitOnceChar, rsplitOnceChar_eq_none h]
  | cons x xs ih => simp [rsplitOnceChar, ih]

theorem splitOnChar_eq_single {c : Char} {xs : List Char} (h : c ∉ xs) :
    splitOnChar c xs = [xs] := by
  induction xs with
  | nil => rfl
  | cons x xs ih =>
    have hx : ¬ x = c := fun he => h (he ▸ List.mem_cons_self x xs)
    have hxs : c ∉ xs := fun hm => h (List.mem_cons_of_mem x hm)
    simp [splitOnChar, ih hxs, hx]

theorem splitOnChar_append {c : Char} {xs : List Char} (h : c ∉ xs)
    (rest : List Char) :
    splitOnChar c (xs ++ c :: rest) = xs :: splitOnChar c rest := by
  induction xs with
  | nil => simp [splitOnChar]
  | cons x xs ih =>
    have hx : ¬ x = c := fun he => h (he ▸ List.mem_cons_self x xs)
    have hxs : c ∉ xs := fun hm => h (List.mem_cons_of_mem x hm)
    simp [splitOnChar, ih hxs, hx]

theorem digitVal_digitChar {d : Nat} (h : d < 10) :
    digitVal (Nat.digitChar d) = some d := by
  interval_cases d <;> decide

theorem isDigit_digitChar {d : Nat} (h : d < 10) :
    (Nat.digitChar d).isDigit = true := by
  interval_cases d <;> decide

theorem parseDigitsAux_append (acc : Nat) (xs ys : List Char) :
    parseDigitsAux acc (xs ++ ys) =
      (parseDigitsAux acc xs).bind fun a => parseDigitsAux a ys := by
  induction xs generalizing acc with
  | nil => rfl
  | cons x xs ih =>
    simp only [List.cons_append, parseDigitsAux]
    cases h : digitVal x <;> simp [h, ih]

theorem natToCharsAux_eq (fuel n : Nat) (h : n ≤ fuel) :
    natToCharsAux fuel n = (Nat.digits 10 n).map Nat.digitChar := by
  induction fuel generalizing n with
  | zero =>
    have h0 : n = 0 := Nat.le_zero.mp h
    subst h0
    simp [natToCharsAux]
  | succ f ih =>
    by_cases hn : n = 0
    · subst hn; simp [natToCharsAux]
    · rw [natToCharsAux, if_neg hn,
        Nat.digits_def' (b := 10) (by norm_num) (Nat.pos_of_ne_zero hn),
        List.map_cons, ih (n / 10) (by omega)]

theorem parseDigitsAux_digits (acc : Nat) (ds : List Nat)
    (h : ∀ d ∈ ds, d < 10) :
    parseDigitsAux acc ((ds.map Nat.digitChar).reverse) =
      some (acc * 10 ^ ds.length + Nat.ofDigits 10 ds) := by
  induction ds generalizing acc with
  | nil => simp [parseDigitsAux]
  | cons d ds ih =>
    have hd : d < 10 := h d (List.mem_cons_self d ds)
    have hds : ∀ x ∈ ds, x < 10 := fun x hx => h x (List.mem_cons_of_mem d hx)
    rw [List.map_cons, List.reverse_cons, parseDigitsAux_append, ih acc hds]
    simp [parseDigitsAux, digitVal_digitChar hd, Nat.ofDigits_cons]
    ring

theorem parseDigits_natToChars (n : Nat) : parseDigits (natToChars n) = some n := by
  by_cases h : n = 0
  · subst h; decide
  · have hdig := parseDigitsAux_digits 0 (Nat.digits 10 n)
      (fun d hd => Nat.digits_lt_base (by norm_num) hd)
    rw [natToChars, if_neg h, natToCharsAux_eq n n le_rfl]
    have hne : ((Nat.digits 10 n).map Nat.digitChar).reverse ≠ [] := by
      simp [Nat.digits_ne_nil_iff_ne_zero.mpr h]
    rw [parseDigits, if_neg hne, hdig]
    simp [Nat.ofDigits_digits]

theorem mem_natToChars_isDigit {n : Nat} {ch : Char} (h : ch ∈ natToChars n) :
    ch.isDigit = true := by
  by_cases h0 : n = 0
  · subst h0
    simp [natToChars] at h
    subst h
    decide
  · rw [natToChars, if_neg h0, natToCharsAux_eq n n le_rfl,
      List.mem_reverse, List.mem_map] at h
    obtain ⟨d, hd, rfl⟩ := h
    exact isDigit_digitChar (Nat.digits_lt_base (by norm_num) hd)

theorem isDigit_facts {c : Char} (h : c.isDigit = true) :
    c ≠ '_' ∧ c ≠ '.' ∧ c ≠ '-' ∧ c ≠ '+' ∧ c.isWhitespace = false := by
  refine ⟨?_, ?_, ?_, ?_, ?_⟩
  · rintro rfl; exact absurd h (by decide)
  · rintro rfl; exact absurd h (by decide)
  · rintro rfl; exact absurd h (by decide)
  · rintro rfl; exact absurd h (by decide)
  · by_cases hw : c.isWhitespace = true
    · simp [Char.isWhitespace] at hw
      rcases hw with ((rfl | rfl) | rfl) | rfl <;> exact absurd h (by decide)
    · simpa using hw

theorem dropWhile_eq_self_of_not {p : Char → Bool} {s : List Char}
    (h : ∀ c ∈ s, p c = false) : s.dropWhile p = s := by
  cases s with
  | nil => rfl
  | cons a l => simp [List.dropWhile, h a (List.mem_cons_self a l)]

theorem stripChars_eq_self {s : List Char}
    (h : ∀ c ∈ s, c.isWhitespace = false) : stripChars s = s := by
  unfold stripChars
  rw [dropWhile_eq_self_of_not h,
    dropWhile_eq_self_of_not (fun c hc => h c (List.mem_reverse.mp hc)),
    List.reverse_reverse]

theorem pyInt_digits {s : List Char} (hne : s ≠ [])
    (hd : ∀ c ∈ s, c.isDigit = true) :
    pyInt s = (parseDigits s).map fun n => (n : Int) := by
  cases s with
  | nil => exact absurd rfl hne
  | cons c rest =>
    have hc := hd c (List.mem_cons_self c rest)
    have hstrip : stripChars (c :: rest) = c :: rest :=
      stripChars_eq_self (fun x hx => (isDigit_facts (hd x hx)).2.2.2.2)
    rw [pyInt, hstrip]
    simp [(isDigit_facts hc).2.2.1, (isDigit_facts hc).2.2.2.1]

theorem pyInt_natToChars (n : Nat) : pyInt (natToChars n) = some (n : Int) := by
  have hne : natToChars n ≠ [] := by
    by_cases h : n = 0
    · subst h; decide
    · rw [natToChars, if_neg h]
      simp [natToCharsAux_eq n n le_rfl, Nat.digits_ne_nil_iff_ne_zero.mpr h]
  rw [pyInt_digits hne (fun c hc => mem_natToChars_isDigit hc),
    parseDigits_natToChars]
  rfl

theorem pyInt_intToChars (i : Int) : pyInt (intToChars i) = some i := by
  unfold intToChars
  by_cases h : i < 0
  · rw [if_pos h]
    have hstrip : stripChars ('-' :: natToChars i.natAbs) =
        '-' :: natToChars i.natAbs := by
      apply stripChars_eq_self
      intro c hc
      rcases List.mem_cons.mp hc with rfl | hc
      · decide
      · exact (isDigit_facts (mem_natToChars_isDigit hc)).2.2.2.2
    rw [pyInt, hstrip]
    simp [parseDigits_natToChars]
    rw [abs_of_nonpos h.le, neg_neg]
  · rw [if_neg h, pyInt_natToChars]
    congr 1
    omega

theorem not_mem_intToChars {c : Char} (hc : c.isDigit = false)
    (hneg : c ≠ '-') (i : Int) : c ∉ intToChars i := by
  intro hm
  unfold intToChars at hm
  split at hm
  · rcases List.mem_cons.mp hm with rfl | hm
    · exact hneg rfl
    · simp [mem_natToChars_isDigit hm] at hc
  · simp [mem_natToChars_isDigit hm] at hc

theorem typeMap_tagChars (tag : Tag) :
    typeMap (tagChars tag) = some (fileTypeOf tag, destSubdirOf tag) := by
  cases tag <;> decide

/-- Evaluation of `_parse_filename` on a filename of the well-formed shape:
four underscore-separated fields followed by a dot and an extension. -/
theorem parseFilename_eval (A d t tg ext : List Char) (eid : Int)
    (ft sub : String)
    (hA : '_' ∉ A) (hd : '_' ∉ d) (ht : '_' ∉ t) (htg : '_' ∉ tg)
    (hext : '.' ∉ ext) (hAint : pyInt A = some eid)
    (htgmap : typeMap tg = some (ft, sub)) :
    parseFilename ((A ++ '_' :: d ++ '_' :: t ++ '_' :: tg) ++ '.' :: ext) =
      some { event_id := eid, timestamp := d ++ '_' :: t, file_type := ft
             dest_subdir := sub, extension := ext
             original_filename :=
               (A ++ '_' :: d ++ '_' :: t ++ '_' :: tg) ++ '.' :: ext } := by
  have h1 : rsplitOnceChar '.'
      (A ++ '_' :: (d ++ '_' :: (t ++ '_' :: (tg ++ '.' :: ext)))) =
      some (A ++ '_' :: (d ++ '_' :: (t ++ '_' :: tg)), ext) := by
    have := rsplitOnceChar_append (c := '.')
      (A ++ '_' :: (d ++ '_' :: (t ++ '_' :: tg))) hext
    simpa [List.append_assoc] using this
  have h2 : splitOnChar '_' (A ++ '_' :: (d ++ '_' :: (t ++ '_' :: tg))) =
      [A, d, t, tg] := by
    rw [splitOnChar_append hA, splitOnChar_append hd, splitOnChar_append ht,
      splitOnChar_eq_single htg]
  simp [parseFilename, h1, h2, hAint, htgmap]

/-- C1 (confirmed).  Filename round-trip: for every legal tuple — an integer
event id, a timestamp `d ++ "_" ++ t` with `d` eight digits and `t` six
digits, a tag in {a, b, thumb, video} and an extension in {jpg, h264} —
formatting the filename as the event processor does and parsing it with
`TransferManager._parse_filename` yields back the same event id, the same
timestamp, the tag's file type and destination subdirectory (a, b →
pictures; thumb → thumbs; video → videos), and the same extension. -/
theorem filename_roundtrip (eventId : Int) (d t : List Char) (tag : Tag)
    (ext : Ext) (hd8 : d.length = 8) (ht6 : t.length = 6)
    (hd : ∀ c ∈ d, c.isDigit = true) (ht : ∀ c ∈ t, c.isDigit = true) :
    parseFilename (formatFilename eventId (d ++ '_' :: t) tag ext) =
      some { event_id := eventId
             timestamp := d ++ '_' :: t
             file_type := fileTypeOf tag
             dest_subdir := destSubdirOf tag
             extension := extChars ext
             original_filename :=
               formatFilename eventId (d ++ '_' :: t) tag ext } := by
  have hext : '.' ∉ extChars ext := by cases ext <;> decide
  have hid : '_' ∉ intToChars eventId :=
    not_mem_intToChars (by decide) (by decide) eventId
  have hd_us : '_' ∉ d := fun hm => (isDigit_facts (hd _ hm)).1 rfl
  have ht_us : '_' ∉ t := fun hm => (isDigit_facts (ht _ hm)).1 rfl
  have htag_us : '_' ∉ tagChars tag := by cases tag <;> decide
  have hform : formatFilename eventId (d ++ '_' :: t) tag ext =
      (intToChars eventId ++ '_' :: d ++ '_' :: t ++ '_' :: tagChars tag) ++
        '.' :: extChars ext := by
    simp [formatFilename]
  rw [hform, parseFilename_eval (intToChars eventId) d t (tagChars tag)
    (extChars ext) eventId (fileTypeOf tag) (destSubdirOf tag) hid hd_us ht_us
    htag_us hext (pyInt_intToChars eventId) (typeMap_tagChars tag)]

/-- C1 witness: the round trip at the concrete tuple
`(42, "20251030_143022", a, jpg)`. -/
theorem filename_roundtrip_witness :
    parseFilename (formatFilename 42 ("20251030".data ++ '_' :: "143022".data)
        Tag.a Ext.jpg) =
      some { event_id := 42
             timestamp := "20251030".data ++ '_' :: "143022".data
             file_type := fileTypeOf Tag.a
             dest_subdir := destSubdirOf Tag.a
             extension := extChars Ext.jpg
             original_filename :=
               formatFilename 42 ("20251030".data ++ '_' :: "143022".data)
                 Tag.a Ext.jpg } :=
  filename_roundtrip 42 "20251030".data "143022".data Tag.a Ext.jpg
    (by decide) (by decide) (by decide) (by decide)

/-- C9 (confirmed).  The filename parse step is total — every Python
exception path (`IndexError` from the missing `'.'`, `ValueError` from
`int`) is caught and yields `None`, which the embedding makes explicit by
returning an `Option` — and each malformed shape maps to `None`: no `'.'`
separator, fewer than four underscore-separated fields before the
extension, a first field that `int()` rejects, or a fourth field outside
{a, b, thumb, video}. -/
theorem parse_malformed_none (fn : List Char) :
    ('.' ∉ fn → parseFilename fn = none) ∧
    (∀ nameWithoutExt extension,
      rsplitOnceChar '.' fn = some (nameWithoutExt, extension) →
      ((splitOnChar '_' nameWithoutExt).length < 4 ∨
        pyInt ((splitOnChar '_' nameWithoutExt).getD 0 []) = none ∨
        typeMap ((splitOnChar '_' nameWithoutExt).getD 3 []) = none) →
      parseFilename fn = none) := by
  constructor
  · intro h
    simp [parseFilename, rsplitOnceChar_eq_none h]
  · intro name ext hr hcase
    simp only [parseFilename, hr]
    rcases hcase with hlen | hint | htag
    · simp [hlen]
    · by_cases hl : (splitOnChar '_' name).length < 4
      · simp [hl]
      · simp only [if_neg hl, hint]
    · by_cases hl : (splitOnChar '_' name).length < 4
      · simp [hl]
      · simp only [if_neg hl]
        cases hpy : pyInt ((splitOnChar '_' name).getD 0 []) with
        | none => rfl
        | some eid => simp only [htag]

/-- C9 witness: the four malformed shapes at concrete filenames. -/
theorem parse_malformed_none_witness :
    parseFilename "noextension".data = none ∧
    parseFilename "ab.jpg".data = none ∧
    parseFilename "x_20251030_143022_a.jpg".data = none ∧
    parseFilename "42_20251030_143022_q.jpg".data = none :=
  ⟨(parse_malformed_none "noextension".data).1 (by decide),
   (parse_malformed_none "ab.jpg".data).2 "ab".data "jpg".data (by decide)
     (Or.inl (by decide)),
   (parse_malformed_none "x_20251030_143022_a.jpg".data).2
     "x_20251030_143022_a".data "jpg".data (by decide)
     (Or.inr (Or.inl (by decide))),
   (parse_malformed_none "42_20251030_143022_q.jpg".data).2
     "42_20251030_143022_q".data "jpg".data (by decide)
     (Or.inr (Or.inr (by decide)))⟩

/-! ## Transfer-manager lemmas -/

/-- `_transfer_file` never touches the pending file or the sentinel. -/
theorem transferFile_preserves_local (env : TransferEnv) (timeout : Nat)
    (s : FState) :
    (transferFile env timeout s).2.localFile = s.localFile ∧
    (transferFile env timeout s).2.sentinel = s.sentinel := by
  unfold transferFile cleanupTmp
  repeat' split
  all_goals exact ⟨rfl, rfl⟩

/-- When `_transfer_file` reports success, the file has been copied and
renamed into its final destination name. -/
theorem transferFile_true_destFinal (env : TransferEnv) (timeout : Nat)
    (s : FState) :
    (transferFile env timeout s).1 = true →
    (transferFile env timeout s).2.destFinal = true := by
  unfold transferFile cleanupTmp
  repeat' split
  all_goals intro h
  all_goals simp_all

/-- C2 (confirmed).  Sentinel handoff invariant: when `_process_sentinel`
runs on a sentinel whose companion file exists, the sentinel is gone
afterwards only if the invocation succeeded, the companion was copied and
atomically renamed to its final destination name, and the local companion
was unlinked; on any failure (parse failure, storage unavailable, copy
timeout, or any exception inside `_transfer_file`) both the companion and
the sentinel remain for the next tick to retry. -/
theorem sentinel_handoff_invariant (parses : Bool) (env : TransferEnv)
    (timeout : Nat) (s : FState)
    (hf : s.localFile = true) (hs : s.sentinel = true) :
    ((processSentinel parses env timeout s).2.sentinel = false →
      (processSentinel parses env timeout s).1 = true ∧
      (processSentinel parses env timeout s).2.destFinal = true ∧
      (processSentinel parses env timeout s).2.localFile = false) ∧
    ((processSentinel parses env timeout s).1 = false →
      (processSentinel parses env timeout s).2.localFile = true ∧
      (processSentinel parses env timeout s).2.sentinel = true) := by
  have hp := transferFile_preserves_local env timeout s
  have hd := transferFile_true_destFinal env timeout s
  cases parses with
  | false =>
    simp [processSentinel, hf, hs]
  | true =>
    cases hr : (transferFile env timeout s).1 with
    | true => simp [processSentinel, hf, hr, hd hr]
    | false => simp [processSentinel, hf, hr, hp.1, hp.2, hs]

/-- C2 witness: the invariant at a concrete all-good environment. -/
theorem sentinel_handoff_invariant_witness :
    ((processSentinel true ⟨true, false, false, false, false, 0, false, false⟩
        30 ⟨true, true, false, false⟩).2.sentinel = false →
      (processSentinel true ⟨true, false, false, false, false, 0, false, false⟩
        30 ⟨true, true, false, false⟩).1 = true ∧
      (processSentinel true ⟨true, false, false, false, false, 0, false, false⟩
        30 ⟨true, true, false, false⟩).2.destFinal = true ∧
      (processSentinel true ⟨true, false, false, false, false, 0, false, false⟩
        30 ⟨true, true, false, false⟩).2.localFile = false) ∧
    ((processSentinel true ⟨true, false, false, false, false, 0, false, false⟩
        30 ⟨true, true, false, false⟩).1 = false →
      (processSentinel true ⟨true, false, false, false, false, 0, false, false⟩
        30 ⟨true, true, false, false⟩).2.localFile = true ∧
      (processSentinel true ⟨true, false, false, false, false, 0, false, false⟩
        30 ⟨true, true, false, false⟩).2.sentinel = true) :=
  sentinel_handoff_invariant true ⟨true, false, false, false, false, 0, false,
    false⟩ 30 ⟨true, true, false, false⟩ rfl rfl

/-- C10 counterexample: `_transfer_file` can return `False` and still leave
`{filename}.tmp` at the destination — `shutil.copy2` raises leaving a
partial `.tmp`, and the cleanup `temp_path.unlink()` raises as well, which
the bare `except: pass` swallows (transfer_manager.py lines 396-401). -/
theorem transfer_stray_tmp_counterexample :
    (transferFile ⟨true, false, true, true, true, 0, false, false⟩ 30
      ⟨true, true, false, false⟩).1 = false ∧
    (transferFile ⟨true, false, true, true, true, 0, false, false⟩ 30
      ⟨true, true, false, false⟩).2.destTmp = true := by
  decide

/-- C10 (corrected).  Amended: whenever `_transfer_file` returns false, no
`.tmp` created by the invocation remains at the destination, *provided* the
cleanup unlink of the temporary does not itself raise (its failure is
swallowed by a bare `except: pass`, in which case a partial `.tmp` can
remain).  Exceptions never propagate out of `_transfer_file`: every raise
point lands in the handler that returns `False`, which the embedding makes
explicit by being a total function. -/
theorem transfer_no_stray_tmp (env : TransferEnv) (timeout : Nat) (s : FState)
    (h0 : s.destTmp = false) (hclean : env.cleanupUnlinkRaises = false)
    (hfail : (transferFile env timeout s).1 = false) :
    (transferFile env timeout s).2.destTmp = false := by
  unfold transferFile cleanupTmp at *
  revert hfail
  repeat' split
  all_goals intro hfail
  all_goals simp_all

/-- C10 witness: a failed copy with a partial `.tmp` whose cleanup succeeds
leaves no temporary behind. -/
theorem transfer_no_stray_tmp_witness :
    (transferFile ⟨true, false, true, true, false, 0, false, false⟩ 30
      ⟨true, true, false, false⟩).2.destTmp = false :=
  transfer_no_stray_tmp ⟨true, false, true, true, false, 0, false, false⟩ 30
    ⟨true, true, false, false⟩ rfl rfl (by decide)

/-! ## API-client retry lemmas -/

/-- A `create_event` iteration returns an id only from a 200/201 response
whose body carries that id. -/
theorem createEventStep_some {o : EventOutcome} {id : Int}
    (h : createEventStep o = some id) :
    ∃ status, o = .resp status (some id) ∧ 200 ≤ status ∧ status < 300 := by
  cases o with
  | exc => simp [createEventStep] at h
  | resp status idField =>
    by_cases hs : statusOk status = true
    · rw [createEventStep, if_pos hs] at h
      subst h
      refine ⟨status, rfl, ?_, ?_⟩ <;>
        (simp [statusOk] at hs; rcases hs with rfl | rfl <;> norm_num)
    · rw [createEventStep, if_neg hs] at h
      exact absurd h (by simp)

/-- A `register_camera` / `update_file` attempt succeeds only on a 200/201
response. -/
theorem httpSuccess_true {o : HttpOutcome} (h : httpSuccess o = true) :
    ∃ status, o = .resp status ∧ 200 ≤ status ∧ status < 300 := by
  cases o with
  | exc => simp [httpSuccess] at h
  | resp status =>
    refine ⟨status, rfl, ?_, ?_⟩ <;>
      (simp [httpSuccess, statusOk] at h; rcases h with rfl | rfl <;> norm_num)

/-- Characterization of the `create_event` retry loop: a returned value
comes from the first succeeding attempt, and the recorded sleeps are the
backoff schedule applied to every earlier attempt. -/
theorem createEventLoop_characterize (outcomes : Nat → EventOutcome) :
    ∀ (fuel a : Nat) (id : Int) (ds : List Nat),
      createEventLoop outcomes a fuel = some (id, ds) →
      ∃ k, a ≤ k ∧ createEventStep (outcomes k) = some id ∧
        (∀ j, a ≤ j → j < k → createEventStep (outcomes j) = none) ∧
        ds = (List.range (k - a)).map fun i => delayAfter (a + i) := by
  intro fuel
  induction fuel with
  | zero =>
    intro a id ds h
    exact absurd h (by simp [createEventLoop])
  | succ f ih =>
    intro a id ds h
    rw [createEventLoop] at h
    cases hstep : createEventStep (outcomes a) with
    | some id0 =>
      rw [hstep] at h
      obtain ⟨rfl, rfl⟩ : id0 = id ∧ [] = ds := by
        simpa using h
      exact ⟨a, le_rfl, hstep, fun j hj1 hj2 => absurd hj1 (by omega),
        by simp⟩
    | none =>
      rw [hstep] at h
      rcases Option.map_eq_some'.mp h with ⟨⟨id1, ds1⟩, hrec, heq⟩
      injection heq with h1 h2
      subst h1
      subst h2
      obtain ⟨k, hak, hk, hlt, hds⟩ := ih (a + 1) _ _ hrec
      refine ⟨k, by omega, hk, ?_, ?_⟩
      · intro j hj1 hj2
        rcases Nat.eq_or_lt_of_le hj1 with rfl | hj
        · exact hstep
        · exact hlt j (by omega) hj2
      · have hka : k - a = (k - (a + 1)) + 1 := by omega
        rw [hka, List.range_succ_eq_map, List.map_cons, List.map_map, hds]
        simp only [Nat.add_zero, List.cons.injEq, true_and]
        apply List.map_congr_left
        intro i _
        simp [Function.comp]
        congr 1
        omega

/-- Characterization of the `register_camera` retry loop. -/
theorem registerLoop_characterize (outcomes : Nat → HttpOutcome) :
    ∀ (fuel a : Nat) (b : Bool) (ds : List Nat),
      registerLoop outcomes a fuel = some (b, ds) →
      b = true ∧
      ∃ k, a ≤ k ∧ httpSuccess (outcomes k) = true ∧
        (∀ j, a ≤ j → j < k → httpSuccess (outcomes j) = false) ∧
        ds = (List.range (k - a)).map fun i => delayAfter (a + i) := by
  intro fuel
  induction fuel with
  | zero =>
    intro a b ds h
    exact absurd h (by simp [registerLoop])
  | succ f ih =>
    intro a b ds h
    rw [registerLoop] at h
    cases hstep : httpSuccess (outcomes a) with
    | true =>
      rw [if_pos hstep] at h
      obtain ⟨rfl, rfl⟩ : true = b ∧ [] = ds := by
        simpa using h
      exact ⟨rfl, a, le_rfl, hstep, fun j hj1 hj2 => absurd hj1 (by omega),
        by simp⟩
    | false =>
      rw [if_neg (by simp [hstep])] at h
      rcases Option.map_eq_some'.mp h with ⟨⟨b1, ds1⟩, hrec, heq⟩
      injection heq with h1 h2
      subst h1
      subst h2
      obtain ⟨hb, k, hak, hk, hlt, hds⟩ := ih (a + 1) _ _ hrec
      refine ⟨hb, k, by omega, hk, ?_, ?_⟩
      · intro j hj1 hj2
        rcases Nat.eq_or_lt_of_le hj1 with rfl | hj
        · exact hstep
        · exact hlt j (by omega) hj2
      · have hka : k - a = (k - (a + 1)) + 1 := by omega
        rw [hka, List.range_succ_eq_map, List.map_cons, List.map_map, hds]
        simp only [Nat.add_zero, List.cons.injEq, true_and]
        apply List.map_congr_left
        intro i _
        simp [Function.comp]
        congr 1
        omega

/-- If every attempt fails, the `create_event` loop never produces a value
(the Python loop never returns). -/
theorem createEventLoop_none (outcomes : Nat → EventOutcome)
    (h : ∀ j, createEventStep (outcomes j) = none) :
    ∀ fuel a, createEventLoop outcomes a fuel = none := by
  intro fuel
  induction fuel with
  | zero => intro a; rfl
  | succ f ih => intro a; rw [createEventLoop, h a]; simp [ih]

/-- C3 (confirmed).  `create_event` and `register_camera` never return a
failure value: a produced value comes only from an attempt whose response
had status 200/201 (hence 2xx), `create_event` additionally requires the
JSON body's `id` field and returns it, a 2xx response with no `id` is
treated like any transient failure and retried, when every attempt fails
the loop never returns, and the sleeps between consecutive attempts follow
the schedule 0s, 5s, 10s, then 30s for every later attempt. -/
theorem api_critical_calls_block_until_success :
    (∀ (outcomes : Nat → EventOutcome) (fuel : Nat) (id : Int) (ds : List Nat),
      createEventLoop outcomes 1 fuel = some (id, ds) →
      ∃ k, 1 ≤ k ∧
        (∃ status, outcomes k = EventOutcome.resp status (some id) ∧
          200 ≤ status ∧ status < 300) ∧
        (∀ j, 1 ≤ j → j < k → createEventStep (outcomes j) = none) ∧
        ds = (List.range (k - 1)).map fun i => delayAfter (1 + i)) ∧
    (∀ status : Nat, createEventStep (EventOutcome.resp status none) = none) ∧
    (∀ outcomes : Nat → EventOutcome,
      (∀ j, createEventStep (outcomes j) = none) →
      ∀ fuel, createEventLoop outcomes 1 fuel = none) ∧
    (∀ (outcomes : Nat → HttpOutcome) (fuel : Nat) (b : Bool) (ds : List Nat),
      registerLoop outcomes 1 fuel = some (b, ds) →
      b = true ∧
      ∃ k, 1 ≤ k ∧
        (∃ status, outcomes k = HttpOutcome.resp status ∧
          200 ≤ status ∧ status < 300) ∧
        (∀ j, 1 ≤ j → j < k → httpSuccess (outcomes j) = false) ∧
        ds = (List.range (k - 1)).map fun i => delayAfter (1 + i)) ∧
    (delayAfter 1 = 0 ∧ delayAfter 2 = 5 ∧ delayAfter 3 = 10 ∧
      ∀ k, 4 ≤ k → delayAfter k = 30) := by
  refine ⟨?_, ?_, ?_, ?_, rfl, rfl, rfl, ?_⟩
  · intro outcomes fuel id ds h
    obtain ⟨k, h1, h2, h3, h4⟩ := createEventLoop_characterize outcomes fuel 1 id ds h
    obtain ⟨status, ho, hlo, hhi⟩ := createEventStep_some h2
    exact ⟨k, h1, ⟨status, ho, hlo, hhi⟩, h3, h4⟩
  · intro status
    simp [createEventStep]
  · intro outcomes h fuel
    exact createEventLoop_none outcomes h fuel 1
  · intro outcomes fuel b ds h
    obtain ⟨hb, k, h1, h2, h3, h4⟩ := registerLoop_characterize outcomes fuel 1 b ds h
    obtain ⟨status, ho, hlo, hhi⟩ := httpSuccess_true h2
    exact ⟨hb, k, h1, ⟨status, ho, hlo, hhi⟩, h3, h4⟩
  · intro k hk
    rw [delayAfter, if_neg (by omega), if_neg (by omega), if_neg (by omega)]

/-- C3 witness: a concrete schedule where attempts 1-3 fail (one of them a
2xx with no `id`) and attempt 4 succeeds, plus an all-failing schedule that
never returns. -/
theorem api_critical_calls_witness :
    (∃ k, 1 ≤ k ∧
      (∃ status,
        (fun j => if j = 4 then EventOutcome.resp 200 (some 7)
          else if j = 2 then EventOutcome.resp 200 none
          else EventOutcome.exc) k = EventOutcome.resp status (some 7) ∧
        200 ≤ status ∧ status < 300) ∧
      (∀ j, 1 ≤ j → j < k →
        createEventStep ((fun j => if j = 4 then EventOutcome.resp 200 (some 7)
          else if j = 2 then EventOutcome.resp 200 none
          else EventOutcome.exc) j) = none) ∧
      [0, 5, 10] = (List.range (k - 1)).map fun i => delayAfter (1 + i)) ∧
    createEventLoop (fun _ => EventOutcome.exc) 1 5 = none :=
  ⟨api_critical_calls_block_until_success.1
    (fun j => if j = 4 then EventOutcome.resp 200 (some 7)
      else if j = 2 then EventOutcome.resp 200 none
      else EventOutcome.exc) 10 7 [0, 5, 10] (by decide),
   api_critical_calls_block_until_success.2.2.1 (fun _ => EventOutcome.exc)
    (fun _ => rfl) 5⟩

/-- C4 counterexample: when the capture of Picture A raises while every
later capture would succeed, neither Picture B nor the video (nor their
sentinels) is produced — the single `try` around the timed sequence aborts
the whole event. -/
theorem artifact_failure_counterexample :
    (processEvent ⟨false, true, true, true⟩).fileB = false ∧
    (processEvent ⟨false, true, true, true⟩).sentB = false ∧
    (processEvent ⟨false, true, true, true⟩).fileVideo = false ∧
    (processEvent ⟨false, true, true, true⟩).sentVideo = false := by
  decide

/-- C4 (corrected).  Amended: within one event's timed sequence, the first
artifact capture that fails aborts the remaining artifacts of that event —
exactly the artifacts of the longest successful prefix (and their
sentinels) exist afterwards; the processor logs the failure and the
processing loop continues with later events. -/
theorem artifact_failure_aborts_event (env : CaptureEnv) :
    processEvent env =
      { fileA := env.pictureA
        sentA := env.pictureA
        fileThumb := env.pictureA && env.thumb
        sentThumb := env.pictureA && env.thumb
        fileB := env.pictureA && env.thumb && env.pictureB
        sentB := env.pictureA && env.thumb && env.pictureB
        fileVideo := env.pictureA && env.thumb && env.pictureB && env.video
        sentVideo := env.pictureA && env.thumb && env.pictureB && env.video } := by
  rcases env with ⟨a, t, b, v⟩
  cases a <;> cases t <;> cases b <;> cases v <;> rfl

/-- C5 (confirmed).  Cooldown discipline: `_in_cooldown` is false when
`last_detection_time == 0` and otherwise true exactly when
`now - last_detection_time < cooldown_seconds`; every path of
`_handle_motion_event` (event created, id `None`, exception) sets
`last_detection_time` to the current time, so the cooldown predicate holds
for at least `cooldown_seconds` after any trigger. -/
theorem cooldown_discipline :
    (∀ now cooldown : ℚ, inCooldown 0 now cooldown = false) ∧
    (∀ last now cooldown : ℚ, last ≠ 0 →
      (inCooldown last now cooldown = true ↔ now - last < cooldown)) ∧
    (∀ (outcome : MotionOutcome) (ts now : ℚ) (st : DetectorState),
      (handleMotionEvent outcome ts now st).lastDetectionTime = now) ∧
    (∀ (outcome : MotionOutcome) (ts now t cooldown : ℚ) (st : DetectorState),
      0 < now → now ≤ t → t < now + cooldown →
      inCooldown (handleMotionEvent outcome ts now st).lastDetectionTime t
        cooldown = true) := by
  refine ⟨?_, ?_, ?_, ?_⟩
  · intro now cooldown
    simp [inCooldown]
  · intro last now cooldown h
    simp [inCooldown, h]
  · intro outcome ts now st
    cases outcome <;> rfl
  · intro outcome ts now t cooldown st h0 h1 h2
    have hlast : (handleMotionEvent outcome ts now st).lastDetectionTime = now := by
      cases outcome <;> rfl
    rw [hlast, inCooldown, if_neg (ne_of_gt h0)]
    simp only [decide_eq_true_eq]
    linarith

/-- C5 witness: the cooldown predicate at concrete times. -/
theorem cooldown_discipline_witness :
    (inCooldown 5 10 65 = true ↔ (10 : ℚ) - 5 < 65) ∧
    inCooldown (handleMotionEvent MotionOutcome.raised 1 2
      { lastDetectionTime := 0, slot := none }).lastDetectionTime 3 65 = true :=
  ⟨cooldown_discipline.2.1 5 10 65 (by norm_num),
   cooldown_discipline.2.2.2 MotionOutcome.raised 1 2 3 65
     { lastDetectionTime := 0, slot := none }
     (by norm_num) (by norm_num) (by norm_num)⟩

/-! ## Frame-comparison lemmas -/

theorem profile_nil : profile [] = [] := rfl

theorem profile_cons (r : List Nat) (m : List (List Nat)) :
    profile (r :: m) = r.length :: profile m := rfl

theorem absdiffRow_eq (r1 r2 : List Nat) :
    absdiffRow r1 r2 =
      if r1.length = r2.length
      then some ((r1.zip r2).map fun p => max p.1 p.2 - min p.1 p.2)
      else none := by
  induction r1 generalizing r2 with
  | nil => cases r2 <;> simp [absdiffRow]
  | cons a as ih =>
    cases r2 with
    | nil => simp [absdiffRow]
    | cons b bs =>
      by_cases h : as.length = bs.length <;> simp [absdiffRow, ih bs, h]

theorem absdiffMat_eq (m1 m2 : List (List Nat)) :
    absdiffMat m1 m2 =
      if profile m1 = profile m2
      then some ((m1.zip m2).map fun rp =>
        (rp.1.zip rp.2).map fun p => max p.1 p.2 - min p.1 p.2)
      else none := by
  induction m1 generalizing m2 with
  | nil => cases m2 <;> simp [absdiffMat, profile_nil, profile_cons]
  | cons r1 m1 ih =>
    cases m2 with
    | nil => simp [absdiffMat, profile_nil, profile_cons]
    | cons r2 m2 =>
      by_cases h1 : r1.length = r2.length <;>
        by_cases h2 : profile m1 = profile m2 <;>
        simp [absdiffMat, absdiffRow_eq, ih, h1, h2, profile_cons]

theorem countAbove_cons (threshold : Nat) (row : List Nat)
    (m : List (List Nat)) :
    countAbove threshold (row :: m) =
      row.countP (fun d => threshold < d) + countAbove threshold m := by
  simp [countAbove]

theorem countAbove_map_eq (threshold : Nat) (g1 g2 : List (List Nat))
    (h : profile g1 = profile g2) :
    countAbove threshold ((g1.zip g2).map fun rp =>
        (rp.1.zip rp.2).map fun p => max p.1 p.2 - min p.1 p.2) =
      (g1.flatten.zip g2.flatten).countP
        fun p => decide (threshold < max p.1 p.2 - min p.1 p.2) := by
  induction g1 generalizing g2 with
  | nil =>
    have hg2 : g2 = [] := by
      cases g2 with
      | nil => rfl
      | cons r m => simp [profile_nil, profile_cons] at h
    subst hg2
    simp [countAbove]
  | cons r1 m1 ih =>
    cases g2 with
    | nil => simp [profile_nil, profile_cons] at h
    | cons r2 m2 =>
      rw [profile_cons, profile_cons] at h
      injection h with h1 h2
      have hz : (r1 ++ m1.flatten).zip (r2 ++ m2.flatten) =
          r1.zip r2 ++ m1.flatten.zip m2.flatten := List.zip_append h1
      rw [List.zip_cons_cons, List.map_cons, countAbove_cons,
        List.flatten_cons, List.flatten_cons, hz, List.countP_append,
        List.countP_map, ih m2 h2]
      rfl

/-- C6 counterexample: on two frames of different shapes (at the default
threshold 60 and sensitivity 50), `_compare_frames` does not return
`(false, 0)` — there is no shape check; `cv2.absdiff` raises and the
exception propagates to the detection loop (modelled as `none`). -/
theorem compare_frames_shape_counterexample :
    compareFrames 60 50 (Frame.gray [[0]]) (Frame.gray [[0, 0]]) = none ∧
    compareFrames 60 50 (Frame.gray [[0]]) (Frame.gray [[0, 0]]) ≠
      some (false, 0) := by
  decide

/-- C6 (corrected).  Amended: `_compare_frames` extracts the green plane of
each frame (the whole frame when `frame1` is single-channel), and when the
two planes have the same shape it returns the count of positions whose
absolute difference strictly exceeds the threshold, reporting motion
exactly when that count strictly exceeds the sensitivity; when the planes'
shapes differ (or green extraction fails) the comparison raises instead of
returning `(false, 0)`.  Stated as equality with the spec-style
`specCompare`. -/
theorem compare_frames_eq_spec (threshold sensitivity : Nat) (f1 f2 : Frame) :
    compareFrames threshold sensitivity f1 f2 =
      specCompare threshold sensitivity f1 f2 := by
  cases f1 with
  | gray p1 =>
    cases f2 with
    | rgb p2 => rfl
    | gray p2 =>
      by_cases h : profile p1 = profile p2
      · simp [compareFrames, specCompare, greenPlane, absdiffMat_eq, h,
          countAbove_map_eq threshold p1 p2 h]
      · simp [compareFrames, specCompare, greenPlane, absdiffMat_eq, h]
  | rgb p1 =>
    cases f2 with
    | gray p2 => rfl
    | rgb p2 =>
      cases hg1 : greenMat p1 with
      | none => simp [compareFrames, specCompare, greenPlane, hg1]
      | some g1 =>
        cases hg2 : greenMat p2 with
        | none => simp [compareFrames, specCompare, greenPlane, hg1, hg2]
        | some g2 =>
          by_cases h : profile g1 = profile g2
          · simp [compareFrames, specCompare, greenPlane, hg1, hg2,
              absdiffMat_eq, h, countAbove_map_eq threshold g1 g2 h]
          · simp [compareFrames, specCompare, greenPlane, hg1, hg2,
              absdiffMat_eq, h]

/-- C7 counterexample: with every attempt answering HTTP 202 — a 2xx
status — `update_file` returns `False` (the code accepts only 200/201),
and the delays slept between consecutive attempts are 1s and 2s; no 4s
delay occurs because the loop never sleeps after the third and final
attempt. -/
theorem update_file_counterexample :
    (200 ≤ 202 ∧ 202 < 300) ∧
    updateFileRun (fun _ => HttpOutcome.resp 202) = (false, [1, 2]) := by
  decide

/-- C7 (corrected).  Amended: `update_file` attempts the PATCH at most 3
times (only attempts 1-3 are ever consulted), returns `True` on the first
attempt whose response has status 200 or 201 — other statuses, 2xx
included, and exceptions count as failures — sleeps `2 ** (attempt - 1)`
seconds after each failed non-final attempt, so the delays between
consecutive attempts are 1s then 2s (the exponential schedule would give
4s only if a fourth attempt existed), and returns `False` without raising
once all 3 attempts fail. -/
theorem update_file_bounded_retry (outcomes : Nat → HttpOutcome) :
    (httpSuccess (outcomes 1) = true → updateFileRun outcomes = (true, [])) ∧
    (httpSuccess (outcomes 1) = false → httpSuccess (outcomes 2) = true →
      updateFileRun outcomes = (true, [1])) ∧
    (httpSuccess (outcomes 1) = false → httpSuccess (outcomes 2) = false →
      httpSuccess (outcomes 3) = true →
      updateFileRun outcomes = (true, [1, 2])) ∧
    (httpSuccess (outcomes 1) = false → httpSuccess (outcomes 2) = false →
      httpSuccess (outcomes 3) = false →
      updateFileRun outcomes = (false, [1, 2])) ∧
    (∀ outcomes2 : Nat → HttpOutcome,
      (∀ k, 1 ≤ k → k ≤ 3 → outcomes k = outcomes2 k) →
      updateFileRun outcomes = updateFileRun outcomes2) ∧
    (∀ status, httpSuccess (HttpOutcome.resp status) = true ↔
      status = 200 ∨ status = 201) := by
  refine ⟨?_, ?_, ?_, ?_, ?_, ?_⟩
  · intro h1
    simp [updateFileRun, updateFileGo, h1]
  · intro h1 h2
    simp [updateFileRun, updateFileGo, h1, h2]
  · intro h1 h2 h3
    simp [updateFileRun, updateFileGo, h1, h2, h3]
  · intro h1 h2 h3
    simp [updateFileRun, updateFileGo, h1, h2, h3]
  · intro o2 h
    simp [updateFileRun, updateFileGo, h 1 (by norm_num) (by norm_num),
      h 2 (by norm_num) (by norm_num), h 3 (by norm_num) (by norm_num)]
  · intro status
    simp [httpSuccess, statusOk]

/-- C7 witness: first attempt fails with a 500, second succeeds with 201,
so the result is `True` with a single 1s delay. -/
theorem update_file_bounded_retry_witness :
    updateFileRun (fun k => if k = 2 then HttpOutcome.resp 201
      else HttpOutcome.resp 500) = (true, [1]) :=
  (update_file_bounded_retry (fun k => if k = 2 then HttpOutcome.resp 201
    else HttpOutcome.resp 500)).2.1 (by decide) (by decide)

/-- C8 (confirmed).  Logger level normalization: a level outside
{INFO, WARNING, ERROR, DEBUG} is replaced by INFO in both the queued entry
and the console line, and a level in that set is preserved unchanged in
both; the entry is enqueued in either case. -/
theorem logger_level_normalization (queue : List (String × String × String))
    (ts message level : String) :
    (level ∉ validLevels →
      logCall queue ts message level =
        { queue := queue ++ [(ts, "INFO", message)]
          console := "[" ++ ts ++ "] [" ++ "INFO" ++ "] " ++ message }) ∧
    (level ∈ validLevels →
      logCall queue ts message level =
        { queue := queue ++ [(ts, level, message)]
          console := "[" ++ ts ++ "] [" ++ level ++ "] " ++ message }) := by
  constructor <;> intro h <;> simp [logCall, h]

/-- C8 witness: an unknown level `TRACE` is normalized to INFO, a known
level `WARNING` is preserved. -/
theorem logger_level_normalization_witness :
    logCall [] "2025-10-30 14:30:22" "motion" "TRACE" =
      { queue := [("2025-10-30 14:30:22", "INFO", "motion")]
        console := "[2025-10-30 14:30:22] [INFO] motion" } ∧
    logCall [] "2025-10-30 14:30:22" "motion" "WARNING" =
      { queue := [("2025-10-30 14:30:22", "WARNING", "motion")]
        console := "[2025-10-30 14:30:22] [WARNING] motion" } :=
  ⟨((logger_level_normalization [] "2025-10-30 14:30:22" "motion" "TRACE").1
      (by decide)).trans (by decide),
   ((logger_level_normalization [] "2025-10-30 14:30:22" "motion" "WARNING").2
      (by decide)).trans (by decide)⟩

end SecCam
